import Mathlib

/-!
# Verification of the QuizPro quiz-session core (`script.js`)

This file gives a shallow embedding of the quiz-session state machine of
the QuizPro application (`QuizState` and the session-level methods of
`QuizApp` in `script.js`) and proves or refutes the frozen claims about
it.

Modelling conventions:
* JS numbers used as integers are modelled as `Int` (they may go negative,
  e.g. `timeLeft`), indices and counts as `Nat`.
* The single mutable `this.state` object is a Lean structure
  `QuizState`; every method becomes a pure function
  `QuizState → QuizState`.
* DOM state consumed by the session logic is folded into the structure:
  `selected` is the text of the `.answer.selected` element (if any), and
  it is wiped when `generateAnswers` rebuilds the answer list.
* Timers: `timerOn` says whether `this.state.timer` currently references a
  live `setInterval` handle; `leakedTimers` counts intervals that are
  still live but no longer referenced (a `startTimer` that overwrites a
  live handle leaks it, since only `clearTimer` ever calls
  `clearInterval` and only on the referenced handle).  `pendingAdvances`
  counts the auto-advance callbacks scheduled by `handleTimeUp` via
  `setTimeout` that have not fired yet.
* `Math.random()`‑driven choices are parametrised by an oracle
  `rand : Nat → Nat`; `rand i % (i + 1)` ranges over exactly the values
  `Math.floor(Math.random() * (i + 1))` can produce.
* The performance messages keep their threshold and severity; the user
  facing message text is abbreviated to the config key, which is all the
  claims inspect.
-/

namespace QuizPro

/-- A fetched trivia question (text fields already HTML-decoded by
`ApiService.fetchQuestions`). Field names follow the JSON / JS object. -/
structure Question where
  question : String
  category : String
  correct_answer : String
  incorrect_answers : List String
deriving DecidableEq

/-- `this.state.settings` in `QuizState`'s constructor /
`collectSettings`. -/
structure Settings where
  numQuestions : Int
  category : String
  difficulty : String
  timePerQuestion : Int
deriving DecidableEq

/-- One element of `this.state.userAnswers` as pushed by `submitAnswer`
and `skipQuestion`.  `userAnswer = none` models JS `null`; the explicit
skip pushes the string `"Skipped"`. -/
structure AnswerRecord where
  question : String
  userAnswer : Option String
  correctAnswer : String
  isCorrect : Bool
  timeSpent : Int
deriving DecidableEq

/-- An entry of `CONFIG.PERFORMANCE_MESSAGES`: minimum percentage,
config key (standing in for the full message text), CSS severity
class. -/
structure PerfEntry where
  min : Nat
  key : String
  severity : String
deriving DecidableEq

/-- `CONFIG.PERFORMANCE_MESSAGES`, in `Object.entries` (insertion)
order: descending thresholds with a catch-all at 0. -/
def PERFORMANCE_MESSAGES : List PerfEntry :=
  [⟨90, "EXCELLENT", "success"⟩,
   ⟨80, "VERY_GOOD", "success"⟩,
   ⟨70, "GOOD", "info"⟩,
   ⟨60, "FAIR", "warning"⟩,
   ⟨0, "POOR", "error"⟩]

/-- The whole mutable session state: the fields of the JS `QuizState`
object together with the bits of DOM / scheduler state the session
logic reads and writes. -/
structure QuizState where
  questions : List Question
  currentQuestionIndex : Nat
  score : Nat
  streak : Nat
  bestStreak : Nat
  timeLeft : Int
  timerOn : Bool
  leakedTimers : Nat
  questionStartTime : Bool
  questionTimes : List Int
  userAnswers : List AnswerRecord
  settings : Settings
  isAnswered : Bool
  isQuizActive : Bool
  selected : Option String
  pendingAdvances : Nat
deriving DecidableEq

/-- The state built by the JS `QuizState` constructor (`new QuizState()`):
everything zeroed / empty, default settings `{10, '', 'medium', 20}`. -/
def initialState : QuizState :=
  { questions := []
    currentQuestionIndex := 0
    score := 0
    streak := 0
    bestStreak := 0
    timeLeft := 0
    timerOn := false
    leakedTimers := 0
    questionStartTime := false
    questionTimes := []
    userAnswers := []
    settings := ⟨10, "", "medium", 20⟩
    isAnswered := false
    isQuizActive := false
    selected := none
    pendingAdvances := 0 }

/-- Stand-in for the `undefined` a JS out-of-range index would give;
never reached from in-session states. -/
def dummyQuestion : Question := ⟨"", "", "", []⟩

/-- `QuizState.clearTimer`: `clearInterval` the referenced handle (if
any) and null it out.  Leaked intervals are unaffected — no reference to
them survives. -/
def clearTimer (s : QuizState) : QuizState := { s with timerOn := false }

/-- `QuizState.incrementScore`. -/
def incrementScore (s : QuizState) : QuizState :=
  { s with score := s.score + 1
           streak := s.streak + 1
           bestStreak := max s.bestStreak (s.streak + 1) }

/-- `QuizState.resetStreak`. -/
def resetStreak (s : QuizState) : QuizState := { s with streak := 0 }

/-- `QuizState.recordQuestionTime`: pushes
`settings.timePerQuestion - timeLeft` onto `questionTimes` when
`questionStartTime` is set. -/
def recordQuestionTime (s : QuizState) : QuizState :=
  if s.questionStartTime then
    { s with questionTimes :=
        s.questionTimes ++ [s.settings.timePerQuestion - s.timeLeft] }
  else s

/-- JS `Math.round (num / den)` for integer `num` and positive integer
`den`: round half up, i.e. `⌊num/den + 1/2⌋`. -/
def mathRound (num : Int) (den : Int) : Int :=
  Int.fdiv (2 * num + den) (2 * den)

/-- `QuizState.getAverageTime`. -/
def getAverageTime (s : QuizState) : Int :=
  if s.questionTimes.length = 0 then 0
  else mathRound s.questionTimes.sum s.questionTimes.length

/-- `QuizState.getPerformanceMessage`.  The JS computes
`percentage = (score / questions.length) * 100` as a float and returns
the first table entry with `percentage >= min`.  For `length > 0` the
comparison agrees with the exact rational one,
`100 * score ≥ min * length`.  For `length = 0` JS produces `NaN`
(score 0; every comparison false, falls through to `POOR`) or
`Infinity` (score > 0; first comparison true), which the two branches
below reproduce. -/
def getPerformanceMessage (s : QuizState) : PerfEntry :=
  if s.questions.length = 0 ∧ s.score = 0 then ⟨0, "POOR", "error"⟩
  else
    match PERFORMANCE_MESSAGES.find?
        (fun c => 100 * s.score ≥ c.min * s.questions.length) with
    | some c => c
    | none => ⟨0, "POOR", "error"⟩

/-- `QuizState.reset`. -/
def reset (s : QuizState) : QuizState :=
  clearTimer
    { s with currentQuestionIndex := 0
             score := 0
             streak := 0
             bestStreak := 0
             questionTimes := []
             userAnswers := []
             isAnswered := false
             isQuizActive := false }

/-- `QuizApp.endQuiz`: deactivate, cancel the referenced timer, show
results. -/
def endQuiz (s : QuizState) : QuizState :=
  clearTimer { s with isQuizActive := false }

/-- `QuizApp.startTimer`: `timeLeft := timePerQuestion`, then
`this.state.timer = setInterval(...)`.  The assignment overwrites the
handle; if a live interval was referenced it is never cleared and leaks. -/
def startTimer (s : QuizState) : QuizState :=
  let s := { s with timeLeft := s.settings.timePerQuestion }
  { s with leakedTimers := s.leakedTimers + (if s.timerOn then 1 else 0)
           timerOn := true }

/-- `QuizApp.showQuestion index`: past the end it ends the quiz;
otherwise it activates question `index`, rebuilds the answer DOM
(clearing any selection), and starts the countdown. -/
def showQuestion (s : QuizState) (index : Nat) : QuizState :=
  if s.questions.length ≤ index then endQuiz s
  else
    startTimer
      { s with currentQuestionIndex := index
               isAnswered := false
               questionStartTime := true
               selected := none }

/-- `QuizApp.selectAnswer`: replace the pending selection unless the
question is already resolved. -/
def selectAnswer (s : QuizState) (answer : String) : QuizState :=
  if s.isAnswered then s else { s with selected := some answer }

/-- `QuizApp.submitAnswer`.  Guard on `isAnswered`; then mark answered,
cancel the timer, record the question time, and push one
`AnswerRecord` built from the pending selection (JS `null` branch when
none). -/
def submitAnswer (s : QuizState) : QuizState :=
  if s.isAnswered then s
  else
    let s := { s with isAnswered := true }
    let s := clearTimer s
    let s := recordQuestionTime s
    let question := s.questions.getD s.currentQuestionIndex dummyQuestion
    match s.selected with
    | some answer =>
      let isCorrect := answer == question.correct_answer
      let s := { s with userAnswers := s.userAnswers ++
          [⟨question.question, some answer, question.correct_answer, isCorrect,
            s.settings.timePerQuestion - s.timeLeft⟩] }
      if isCorrect then incrementScore s else resetStreak s
    | none =>
      let s := resetStreak s
      { s with userAnswers := s.userAnswers ++
          [⟨question.question, none, question.correct_answer, false,
            s.settings.timePerQuestion⟩] }

/-- `QuizApp.skipQuestion`. -/
def skipQuestion (s : QuizState) : QuizState :=
  if s.isAnswered then s
  else
    let s := { s with isAnswered := true }
    let s := clearTimer s
    let s := resetStreak s
    let question := s.questions.getD s.currentQuestionIndex dummyQuestion
    { s with userAnswers := s.userAnswers ++
        [⟨question.question, some "Skipped", question.correct_answer, false, 0⟩] }

/-- `QuizApp.nextQuestion`: advance unconditionally (there is no
`isAnswered` guard in the function itself). -/
def nextQuestion (s : QuizState) : QuizState :=
  if s.currentQuestionIndex + 1 < s.questions.length then
    showQuestion s (s.currentQuestionIndex + 1)
  else endQuiz s

/-- `QuizApp.handleTimeUp`: guard on `isAnswered`; otherwise cancel the
timer, auto-submit, and schedule the delayed auto-advance callback. -/
def handleTimeUp (s : QuizState) : QuizState :=
  if s.isAnswered then s
  else
    let s := clearTimer s
    let s := submitAnswer s
    { s with pendingAdvances := s.pendingAdvances + 1 }

/-- One firing of the `setInterval` callback installed by `startTimer`:
decrement `timeLeft` and invoke `handleTimeUp` when it is down to 0. -/
def tick (s : QuizState) : QuizState :=
  let s := { s with timeLeft := s.timeLeft - 1 }
  if s.timeLeft ≤ 0 then handleTimeUp s else s

/-- One firing of the `setTimeout` callback scheduled by
`handleTimeUp`: advance or end depending on the current index. -/
def delayedAdvanceRun (s : QuizState) : QuizState :=
  let s := { s with pendingAdvances := s.pendingAdvances - 1 }
  if s.currentQuestionIndex < s.questions.length - 1 then nextQuestion s
  else endQuiz s

/-- `QuizApp.validateSettings`. -/
def validateSettings (st : Settings) : Bool :=
  if st.numQuestions < 1 ∨ st.numQuestions > 50 then false
  else if st.timePerQuestion < 5 ∨ st.timePerQuestion > 300 then false
  else true

/-- The errors `startQuiz` can surface through its `catch` /
early-return paths. -/
inductive StartError where
  | invalidSettings
  | fetchFailed (msg : String)
  | emptyResult
deriving DecidableEq

/-- Result of one `startQuiz` attempt: the state left behind, what was
written to the Preference Store, and the surfaced error (if any). -/
structure StartOutcome where
  state : QuizState
  savedSettings : Option Settings
  error : Option StartError
deriving DecidableEq

/-- `QuizApp.startQuiz`, with the question fetch passed in as data:
`collectSettings`, `saveSettings` (unconditionally, before validation),
`validateSettings` (early return on failure), the awaited fetch, the
assignment `this.state.questions = …` (before the emptiness check!),
the emptiness check, and on success `reset` / activate /
`showQuestion 0`. -/
def startQuiz (s : QuizState) (input : Settings)
    (fetchResult : Except String (List Question)) : StartOutcome :=
  let s := { s with settings := input }
  let saved := some input
  if validateSettings input = false then
    ⟨s, saved, some .invalidSettings⟩
  else
    match fetchResult with
    | .error msg => ⟨s, saved, some (.fetchFailed msg)⟩
    | .ok qs =>
      let s := { s with questions := qs }
      if qs.length = 0 then ⟨s, saved, some .emptyResult⟩
      else
        let s := reset s
        let s := { s with isQuizActive := true }
        ⟨showQuestion s 0, saved, none⟩

/-- Number of live `setInterval` countdowns: the referenced one plus any
leaked ones. -/
def liveTimers (s : QuizState) : Nat :=
  s.leakedTimers + (if s.timerOn then 1 else 0)

/-- The events the event loop can deliver to an in-session state, with
the enabling conditions the surrounding UI enforces:
* answers are clickable and the submit / skip buttons shown only on the
  active quiz screen;
* the next button is shown (and the `Ctrl+n` shortcut enabled) only once
  `isAnswered` is set;
* a countdown tick needs a live interval, a delayed advance a scheduled
  callback. -/
inductive Step : QuizState → QuizState → Prop where
  | select (s : QuizState) (a : String) (hActive : s.isQuizActive = true) :
      Step s (selectAnswer s a)
  | submit (s : QuizState) (hActive : s.isQuizActive = true) :
      Step s (submitAnswer s)
  | skip (s : QuizState) (hActive : s.isQuizActive = true) :
      Step s (skipQuestion s)
  | next (s : QuizState) (hAns : s.isAnswered = true) :
      Step s (nextQuestion s)
  | timerTick (s : QuizState)
      (hLive : s.timerOn = true ∨ 0 < s.leakedTimers) :
      Step s (tick s)
  | delayedAdvance (s : QuizState) (hPending : 0 < s.pendingAdvances) :
      Step s (delayedAdvanceRun s)

/-- Session states reachable from a given start state. -/
inductive Reachable (s0 : QuizState) : QuizState → Prop where
  | refl : Reachable s0 s0
  | step {s s' : QuizState} : Reachable s0 s → Step s s' → Reachable s0 s'

/-- The destructuring swap
`[shuffled[i], shuffled[j]] = [shuffled[j], shuffled[i]]`
(total: identity out of range, which `shuffleArray` never hits). -/
def swapIdx (l : List α) (i j : Nat) : List α :=
  match l.get? i, l.get? j with
  | some a, some b => (l.set i b).set j a
  | _, _ => l

/-- The `for (let i = …; i > 0; i--)` loop of `Utils.shuffleArray`,
counting `i` down to 1; `rand i % (i + 1)` is the value
`Math.floor(Math.random() * (i + 1))` drawn at step `i`. -/
def fisherLoop (rand : Nat → Nat) : Nat → List α → List α
  | 0, l => l
  | i + 1, l => fisherLoop rand i (swapIdx l (i + 1) (rand (i + 1) % (i + 2)))

/-- `Utils.shuffleArray`: copy the input (`[...array]` — the argument is
not mutated) and run the Fisher–Yates loop from `length - 1` down. -/
def shuffleArray (rand : Nat → Nat) (array : List α) : List α :=
  fisherLoop rand (array.length - 1) array

/-- `QuizApp.generateAnswers`: the presented options are
`[...question.incorrect_answers, question.correct_answer]`, shuffled. -/
def generateAnswers (rand : Nat → Nat) (question : Question) : List String :=
  shuffleArray rand (question.incorrect_answers ++ [question.correct_answer])

/-- Spec-level recomputation: number of recorded answers with
`isCorrect = true`. -/
def countCorrect (l : List AnswerRecord) : Nat :=
  (l.filter (·.isCorrect)).length

/-- Spec-level recomputation of `(bestStreak, streak)` from the answer
list: fold that zeroes the run on an incorrect resolution, extends it on
a correct one, and tracks the maximum run observed. -/
def streakPair (l : List AnswerRecord) : Nat × Nat :=
  l.foldl
    (fun p a =>
      let r := if a.isCorrect then p.2 + 1 else 0
      (max p.1 r, r))
    (0, 0)

/-- The scoring invariant: the counters can be recomputed from the
recorded answers. -/
@[reducible] def ScoreInv (s : QuizState) : Prop :=
  s.score = countCorrect s.userAnswers ∧
  s.streak = (streakPair s.userAnswers).2 ∧
  s.bestStreak = (streakPair s.userAnswers).1

/-- The `(score, streak, bestStreak, userAnswers)` quadruple, for stating
that a transition leaves all scoring state untouched. -/
def scoreData (s : QuizState) : Nat × Nat × Nat × List AnswerRecord :=
  (s.score, s.streak, s.bestStreak, s.userAnswers)

/-- The rounded percentage computed by `QuizApp.showResults`:
`Math.round((score / totalQuestions) * 100)`. -/
def resultPercentage (s : QuizState) : Nat :=
  (200 * s.score + s.questions.length) / (2 * s.questions.length)

/-- Modelled from the spec: the spec's description of the tier lookup —
scan the descending threshold table and pick the first entry whose
minimum is `<=` the (rounded) percentage.  Kept separate from
`getPerformanceMessage` (the code) to compare the two. -/
def specTier (percentage : Nat) : Option PerfEntry :=
  PERFORMANCE_MESSAGES.find? (fun c => c.min ≤ percentage)

/-! ### Concrete fixtures used by counterexamples and witnesses -/

/-- Sample fetched questions. -/
def qA : Question := ⟨"Q0", "General", "A0", ["B0", "C0", "D0"]⟩

def qB : Question := ⟨"Q1", "General", "A1", ["B1", "C1", "D1"]⟩

def qC : Question := ⟨"Q2", "General", "A2", ["B2", "C2", "D2"]⟩

/-- A session state with the current question already resolved. -/
def answeredState : QuizState :=
  { initialState with
      questions := [qA], isQuizActive := true, isAnswered := true,
      questionStartTime := true, selected := some "B0",
      userAnswers := [⟨"Q0", some "B0", "A0", false, 3⟩] }

/-- A mid-session state whose current question is not yet resolved. -/
def unansweredState : QuizState :=
  { initialState with
      questions := [qA, qB], isQuizActive := true,
      questionStartTime := true, timerOn := true, timeLeft := 7,
      settings := ⟨2, "", "medium", 20⟩ }

/-- Start state of the timer-leak trace: three questions, five seconds
per question. -/
def leakStart : QuizState :=
  (startQuiz initialState ⟨3, "", "medium", 5⟩ (.ok [qA, qB, qC])).state

/-- End state of the timer-leak trace: the countdown of question 0 runs
out (`handleTimeUp` fires and schedules its delayed auto-advance), the
user clicks next during the delay, then the delayed auto-advance fires
anyway. -/
def leakEnd : QuizState :=
  delayedAdvanceRun (nextQuestion (tick (tick (tick (tick (tick leakStart))))))

/-- Prior idle state holding the questions of a previous session. -/
def priorC5 : QuizState := { initialState with questions := [qA] }

/-- Valid settings used for failing start attempts. -/
def inputC5 : Settings := ⟨5, "", "easy", 30⟩

/-- An active, unresolved question with nothing selected and 5 seconds
already elapsed (`timePerQuestion = 20`, `timeLeft = 15`). -/
def c6s : QuizState :=
  { initialState with
      questions := [qA], isQuizActive := true, questionStartTime := true,
      timerOn := true, timeLeft := 15, settings := ⟨1, "", "medium", 20⟩ }

/-- Start state of the mixed submit/skip trace: two questions, twenty
seconds each. -/
def c7Start : QuizState :=
  (startQuiz initialState ⟨2, "", "medium", 20⟩ (.ok [qA, qB])).state

/-- End state of the mixed trace: question 0 answered correctly after
10 seconds, question 1 skipped, session completed. -/
def c7End : QuizState :=
  nextQuestion (skipQuestion (nextQuestion (submitAnswer
    (tick (tick (tick (tick (tick (tick (tick (tick (tick (tick
      (selectAnswer c7Start "A0"))))))))))))))

/-- A completed session scoring 35 of 39: the exact percentage is
`89.74…`, the rounded one is `90`. -/
def c8s : QuizState :=
  { initialState with questions := List.replicate 39 qA, score := 35 }

/-- A completed session scoring 3 of 4 — exactly 75%. -/
def c8w : QuizState :=
  { initialState with questions := [qA, qB, qC, qA], score := 3 }

/-! ### Claim C1 — resolution is idempotent once `isAnswered` holds -/

/-- C1: once `isAnswered` is true for the current question, calling
`submitAnswer`, `handleTimeUp` or `skipQuestion` again is a no-op — the
whole state (in particular `userAnswers`, `score` and `streak`) is left
unchanged, so racing resolution triggers cannot create a second
`AnswerRecord`. -/
theorem resolution_idempotent (s : QuizState) (h : s.isAnswered = true) :
    submitAnswer s = s ∧ handleTimeUp s = s ∧ skipQuestion s = s := by
  refine ⟨?_, ?_, ?_⟩ <;> simp [submitAnswer, handleTimeUp, skipQuestion, h]

/-- Witness for C1 at a concrete resolved state. -/
theorem resolution_idempotent_spot :
    answeredState.isAnswered = true ∧
    submitAnswer answeredState = answeredState ∧
    handleTimeUp answeredState = answeredState ∧
    skipQuestion answeredState = answeredState :=
  ⟨rfl, resolution_idempotent answeredState rfl⟩

/-! ### Claim C4 — `nextQuestion` has no `isAnswered` guard -/

/-- C4 counterexample: `nextQuestion` is *not* a no-op on an unresolved
question — with `isAnswered = false` it still advances to the next
question. -/
theorem nextQuestion_unguarded :
    unansweredState.isAnswered = false ∧
    nextQuestion unansweredState ≠ unansweredState ∧
    (nextQuestion unansweredState).currentQuestionIndex = 1 := by
  decide

/-- C4 amended: `nextQuestion` advances unconditionally (the
`isAnswered` gating lives only in the UI: the next button is hidden and
the `Ctrl+n` shortcut disabled until then).  When a next question
exists it becomes current, unresolved, with a fresh countdown;
otherwise the quiz ends. -/
theorem nextQuestion_advances (s : QuizState) :
    (s.currentQuestionIndex + 1 < s.questions.length →
      (nextQuestion s).currentQuestionIndex = s.currentQuestionIndex + 1 ∧
      (nextQuestion s).isAnswered = false ∧
      (nextQuestion s).timerOn = true ∧
      (nextQuestion s).timeLeft = s.settings.timePerQuestion) ∧
    (s.questions.length ≤ s.currentQuestionIndex + 1 →
      (nextQuestion s).isQuizActive = false ∧
      (nextQuestion s).timerOn = false) := by
  constructor
  · intro h
    have h' : ¬ s.questions.length ≤ s.currentQuestionIndex + 1 := by omega
    simp [nextQuestion, showQuestion, startTimer, if_pos h, if_neg h']
  · intro h
    have h' : ¬ s.currentQuestionIndex + 1 < s.questions.length := by omega
    simp [nextQuestion, endQuiz, clearTimer, if_neg h']

/-- Witness for C4's amended statement at a concrete state. -/
theorem nextQuestion_advances_spot :
    (nextQuestion unansweredState).currentQuestionIndex = 1 ∧
    (nextQuestion unansweredState).isAnswered = false :=
  ⟨((nextQuestion_advances unansweredState).1 (by decide)).1,
   ((nextQuestion_advances unansweredState).1 (by decide)).2.1⟩

/-! ### Claim C6 — `timeSpent` of the created record -/

/-- C6 counterexample: resolving by `submitAnswer` with no pending
selection while time is still on the clock records
`timeSpent = timePerQuestion` (20), not
`timePerQuestion - timeLeft` (5). -/
theorem submit_without_selection_timeSpent :
    c6s.isAnswered = false ∧ c6s.selected = none ∧
    (submitAnswer c6s).userAnswers.map (fun r => r.timeSpent) = [20] ∧
    c6s.settings.timePerQuestion - c6s.timeLeft = 5 := by
  decide

/-- C6 amended: the record created by `submitAnswer` carries
`timeSpent = timePerQuestion - timeLeft` when a selection is pending,
but `timeSpent = timePerQuestion` when none is — the two agree exactly
when `timeLeft = 0`, as at a natural timeout; and `handleTimeUp`
records exactly what `submitAnswer` records. -/
theorem submitAnswer_record (s : QuizState) (h : s.isAnswered = false) :
    (∀ a, s.selected = some a →
      (submitAnswer s).userAnswers = s.userAnswers ++
        [⟨(s.questions.getD s.currentQuestionIndex dummyQuestion).question,
          some a,
          (s.questions.getD s.currentQuestionIndex dummyQuestion).correct_answer,
          a == (s.questions.getD s.currentQuestionIndex dummyQuestion).correct_answer,
          s.settings.timePerQuestion - s.timeLeft⟩]) ∧
    (s.selected = none →
      (submitAnswer s).userAnswers = s.userAnswers ++
        [⟨(s.questions.getD s.currentQuestionIndex dummyQuestion).question,
          none,
          (s.questions.getD s.currentQuestionIndex dummyQuestion).correct_answer,
          false,
          s.settings.timePerQuestion⟩]) ∧
    (handleTimeUp s).userAnswers = (submitAnswer s).userAnswers := by
  refine ⟨?_, ?_, ?_⟩
  · intro a hsel
    cases hq : s.questionStartTime <;>
      · simp only [submitAnswer, h, clearTimer, recordQuestionTime, hq, hsel,
          Bool.false_eq_true, if_false, if_true]
        split <;> simp [incrementScore, resetStreak]
  · intro hsel
    cases hq : s.questionStartTime <;>
      simp [submitAnswer, h, clearTimer, recordQuestionTime, hq, hsel,
        resetStreak]
  · cases hq : s.questionStartTime <;> cases hsel : s.selected <;>
      simp only [handleTimeUp, submitAnswer, h, clearTimer,
        recordQuestionTime, hq, hsel, Bool.false_eq_true, if_false, if_true]

/-- Witness for C6's amended statement at a concrete state. -/
theorem submitAnswer_record_spot :
    (submitAnswer c6s).userAnswers = [⟨"Q0", none, "A0", false, 20⟩] :=
  (submitAnswer_record c6s rfl).2.1 rfl

/-! ### Claim C9 — settings validation and unconditional persistence -/

/-- C9: validation fails exactly when `numQuestions` is outside
`[1, 50]` or `timePerQuestion` is outside `[5, 300]`, and every start
attempt persists the entered settings (the write happens before
validation, so it happens even when validation fails and no session
starts). -/
theorem validate_and_persist (prior : QuizState) (input : Settings)
    (fetchResult : Except String (List Question)) :
    (validateSettings input = false ↔
      (input.numQuestions < 1 ∨ 50 < input.numQuestions ∨
       input.timePerQuestion < 5 ∨ 300 < input.timePerQuestion)) ∧
    (startQuiz prior input fetchResult).savedSettings = some input := by
  constructor
  · unfold validateSettings
    split
    · next hcond => simp only [true_iff]; omega
    · next hcond =>
      split
      · next hcond2 => simp only [true_iff]; omega
      · next hcond2 => simp only [Bool.true_eq_false, false_iff]; omega
  · unfold startQuiz
    split
    · rfl
    · cases fetchResult with
      | error msg => rfl
      | ok qs =>
        simp only
        split <;> rfl

/-! ### Claim C5 — failed start and the prior state -/

/-- C5 counterexample: a start attempt whose fetch returns the empty
list surfaces `emptyResult`, but the prior idle state is *not* fully
intact — its `questions` field has been overwritten with the empty
fetched list (the assignment happens before the emptiness check). -/
theorem startQuiz_empty_overwrites :
    (startQuiz priorC5 inputC5 (Except.ok [])).error = some .emptyResult ∧
    priorC5.questions = [qA] ∧
    (startQuiz priorC5 inputC5 (Except.ok [])).state.questions = [] := by
  decide

/-- C5 amended: an empty fetch result is surfaced as `emptyResult`; on
any failed start the counters, recorded answers, index and flags of the
prior state are unchanged, but `settings` has already been overwritten
with the entered settings, and on the empty-result failure `questions`
has already been overwritten with the (empty) fetched list.  On the
validation and fetch failures `questions` is untouched. -/
theorem startQuiz_failure_state (prior : QuizState) (input : Settings)
    (fetchResult : Except String (List Question)) :
    (validateSettings input = true → fetchResult = Except.ok [] →
      (startQuiz prior input fetchResult).error = some .emptyResult) ∧
    ((startQuiz prior input fetchResult).error.isSome →
      (startQuiz prior input fetchResult).state.score = prior.score ∧
      (startQuiz prior input fetchResult).state.streak = prior.streak ∧
      (startQuiz prior input fetchResult).state.bestStreak = prior.bestStreak ∧
      (startQuiz prior input fetchResult).state.userAnswers = prior.userAnswers ∧
      (startQuiz prior input fetchResult).state.questionTimes = prior.questionTimes ∧
      (startQuiz prior input fetchResult).state.currentQuestionIndex =
        prior.currentQuestionIndex ∧
      (startQuiz prior input fetchResult).state.isAnswered = prior.isAnswered ∧
      (startQuiz prior input fetchResult).state.isQuizActive = prior.isQuizActive ∧
      (startQuiz prior input fetchResult).state.settings = input ∧
      ((startQuiz prior input fetchResult).error = some .emptyResult →
        (startQuiz prior input fetchResult).state.questions = []) ∧
      ((startQuiz prior input fetchResult).error = some .invalidSettings ∨
          (∃ m, (startQuiz prior input fetchResult).error = some (.fetchFailed m)) →
        (startQuiz prior input fetchResult).state.questions = prior.questions)) := by
  constructor
  · intro hv hf
    subst hf
    simp [startQuiz, hv]
  · intro hfail
    unfold startQuiz at hfail ⊢
    split
    · simp
    · cases fetchResult with
      | error msg => simp
      | ok qs =>
        simp only at hfail ⊢
        split
        · simp_all
        · simp_all

/-- Witness for C5's amended statement at a concrete failing start. -/
theorem startQuiz_failure_state_spot :
    (startQuiz priorC5 inputC5 (Except.ok [])).error = some .emptyResult ∧
    (startQuiz priorC5 inputC5 (Except.ok [])).state.score = priorC5.score :=
  ⟨(startQuiz_failure_state priorC5 inputC5 (Except.ok [])).1 (by decide) rfl,
   ((startQuiz_failure_state priorC5 inputC5 (Except.ok [])).2 (by decide)).1⟩

/-! ### Claim C7 — what the average time is taken over -/

/-- C7 counterexample: a completed two-question session — question 0
answered correctly after 10 seconds, question 1 skipped — reachable
from a fresh start.  The recorded answers carry `timeSpent` `[10, 0]`
(rounded mean 5), but `getAverageTime` returns 10: skipped questions
contribute no entry to `questionTimes` at all. -/
theorem average_ignores_skips :
    Reachable c7Start c7End ∧
    c7End.isQuizActive = false ∧
    c7End.userAnswers.map (fun r => r.timeSpent) = [10, 0] ∧
    c7End.questionTimes = [10] ∧
    getAverageTime c7End = 10 ∧
    mathRound (c7End.userAnswers.map (fun r => r.timeSpent)).sum
      c7End.userAnswers.length = 5 := by
  refine ⟨?_, by decide, by decide, by decide, by decide, by decide⟩
  show Reachable c7Start c7End
  have h0 : Reachable c7Start c7Start := .refl
  have h1 := h0.step (Step.select _ "A0" (by decide))
  have h2 := h1.step (Step.timerTick _ (Or.inl (by decide)))
  have h3 := h2.step (Step.timerTick _ (Or.inl (by decide)))
  have h4 := h3.step (Step.timerTick _ (Or.inl (by decide)))
  have h5 := h4.step (Step.timerTick _ (Or.inl (by decide)))
  have h6 := h5.step (Step.timerTick _ (Or.inl (by decide)))
  have h7 := h6.step (Step.timerTick _ (Or.inl (by decide)))
  have h8 := h7.step (Step.timerTick _ (Or.inl (by decide)))
  have h9 := h8.step (Step.timerTick _ (Or.inl (by decide)))
  have h10 := h9.step (Step.timerTick _ (Or.inl (by decide)))
  have h11 := h10.step (Step.timerTick _ (Or.inl (by decide)))
  have h12 := h11.step (Step.submit _ (by decide))
  have h13 := h12.step (Step.next _ (by decide))
  have h14 := h13.step (Step.skip _ (by decide))
  exact h14.step (Step.next _ (by decide))

/-- C7 amended: `getAverageTime` is the rounded mean of
`questionTimes`, which is 0 on the empty list rather than an error;
`skipQuestion` never records a question time (so an all-skipped session
averages over the empty list, not over zero entries), while an
unanswered `submitAnswer` appends `timePerQuestion - timeLeft`. -/
theorem averageTime_over_questionTimes (s : QuizState) :
    (s.questionTimes = [] → getAverageTime s = 0) ∧
    (s.questionTimes ≠ [] →
      getAverageTime s = mathRound s.questionTimes.sum s.questionTimes.length) ∧
    (skipQuestion s).questionTimes = s.questionTimes ∧
    (s.isAnswered = false → s.questionStartTime = true →
      (submitAnswer s).questionTimes =
        s.questionTimes ++ [s.settings.timePerQuestion - s.timeLeft]) := by
  refine ⟨?_, ?_, ?_, ?_⟩
  · intro hq; simp [getAverageTime, hq]
  · intro hq
    have : s.questionTimes.length ≠ 0 := by
      simpa [List.length_eq_zero] using hq
    simp [getAverageTime, this]
  · by_cases ha : s.isAnswered = true
    · simp [skipQuestion, ha]
    · rw [Bool.not_eq_true] at ha
      simp [skipQuestion, ha, clearTimer, resetStreak]
  · intro ha hq
    cases hsel : s.selected
    · simp only [submitAnswer, ha, clearTimer, recordQuestionTime, hq, hsel,
        Bool.false_eq_true, if_false, if_true]
      simp [resetStreak]
    · simp only [submitAnswer, ha, clearTimer, recordQuestionTime, hq, hsel,
        Bool.false_eq_true, if_false, if_true]
      split <;> simp [incrementScore, resetStreak]

/-- Witness for C7's amended statement at concrete states. -/
theorem averageTime_over_questionTimes_spot :
    getAverageTime initialState = 0 ∧
    (submitAnswer c6s).questionTimes = [5] :=
  ⟨(averageTime_over_questionTimes initialState).1 rfl,
   (averageTime_over_questionTimes c6s).2.2.2 rfl rfl⟩

/-! ### Claim C8 — percentage and the performance tier -/

/-- C8 counterexample: scoring 35 of 39 rounds to a displayed
percentage of 90, and the spec's scan over the rounded percentage picks
the 90-threshold tier — but the code compares the *unrounded*
percentage (89.74…) and picks the 80-threshold tier. -/
theorem tier_uses_unrounded_percentage :
    resultPercentage c8s = 90 ∧
    specTier (resultPercentage c8s) = some ⟨90, "EXCELLENT", "success"⟩ ∧
    getPerformanceMessage c8s = ⟨80, "VERY_GOOD", "success"⟩ ∧
    specTier (resultPercentage c8s) ≠ some (getPerformanceMessage c8s) := by
  decide

/-- C8 amended: the displayed percentage is
`round(100 * score / len(questions))`, but the tier is selected by
scanning the descending table (90, 80, 70, 60, 0) against the *exact*
percentage — the first entry with `min * len ≤ 100 * score` wins, and
the catch-all 0 entry makes the scan total.  A session at exactly 75%
selects the "good"/70-threshold tier. -/
theorem performance_tier_lookup (s : QuizState)
    (h : 0 < s.questions.length) :
    getPerformanceMessage s =
      (if 90 * s.questions.length ≤ 100 * s.score then
        (⟨90, "EXCELLENT", "success"⟩ : PerfEntry)
      else if 80 * s.questions.length ≤ 100 * s.score then
        ⟨80, "VERY_GOOD", "success"⟩
      else if 70 * s.questions.length ≤ 100 * s.score then
        ⟨70, "GOOD", "info"⟩
      else if 60 * s.questions.length ≤ 100 * s.score then
        ⟨60, "FAIR", "warning"⟩
      else ⟨0, "POOR", "error"⟩) ∧
    (100 * s.score = 75 * s.questions.length →
      getPerformanceMessage s = ⟨70, "GOOD", "info"⟩) := by
  have hlen : ¬ (s.questions.length = 0 ∧ s.score = 0) := by omega
  have hmain : getPerformanceMessage s =
      (if 90 * s.questions.length ≤ 100 * s.score then
        (⟨90, "EXCELLENT", "success"⟩ : PerfEntry)
      else if 80 * s.questions.length ≤ 100 * s.score then
        ⟨80, "VERY_GOOD", "success"⟩
      else if 70 * s.questions.length ≤ 100 * s.score then
        ⟨70, "GOOD", "info"⟩
      else if 60 * s.questions.length ≤ 100 * s.score then
        ⟨60, "FAIR", "warning"⟩
      else ⟨0, "POOR", "error"⟩) := by
    unfold getPerformanceMessage PERFORMANCE_MESSAGES
    rw [if_neg hlen]
    by_cases h90 : 90 * s.questions.length ≤ 100 * s.score <;>
      by_cases h80 : 80 * s.questions.length ≤ 100 * s.score <;>
      by_cases h70 : 70 * s.questions.length ≤ 100 * s.score <;>
      by_cases h60 : 60 * s.questions.length ≤ 100 * s.score <;>
      simp [List.find?, ge_iff_le, h90, h80, h70, h60]
  refine ⟨hmain, fun h75 => ?_⟩
  rw [hmain, if_neg (by omega), if_neg (by omega), if_pos (by omega)]

/-- Witness for C8's amended statement: 3 of 4 is exactly 75% and
selects the "good" tier. -/
theorem performance_tier_lookup_spot :
    getPerformanceMessage c8w = ⟨70, "GOOD", "info"⟩ :=
  (performance_tier_lookup c8w (by decide)).2 (by decide)

/-! ### Claim C2 — scoring invariants over all reachable states -/

theorem countCorrect_append (l : List AnswerRecord) (a : AnswerRecord) :
    countCorrect (l ++ [a]) =
      countCorrect l + (if a.isCorrect then 1 else 0) := by
  cases h : a.isCorrect <;> simp [countCorrect, List.filter_append, h]

theorem streakPair_append (l : List AnswerRecord) (a : AnswerRecord) :
    streakPair (l ++ [a]) =
      (max (streakPair l).1 (if a.isCorrect then (streakPair l).2 + 1 else 0),
       if a.isCorrect then (streakPair l).2 + 1 else 0) := by
  simp only [streakPair, List.foldl_append, List.foldl_cons, List.foldl_nil]

theorem scoreInv_of_scoreData {s s' : QuizState}
    (h : scoreData s' = scoreData s) (hInv : ScoreInv s) : ScoreInv s' := by
  simp only [scoreData, Prod.mk.injEq] at h
  exact ⟨h.1 ▸ h.2.2.2 ▸ hInv.1,
         h.2.1 ▸ h.2.2.2 ▸ hInv.2.1,
         h.2.2.1 ▸ h.2.2.2 ▸ hInv.2.2⟩

theorem bestStreak_of_scoreData {s s' : QuizState}
    (h : scoreData s' = scoreData s) : s'.bestStreak = s.bestStreak := by
  simp only [scoreData, Prod.mk.injEq] at h
  exact h.2.2.1

theorem scoreData_selectAnswer (s : QuizState) (a : String) :
    scoreData (selectAnswer s a) = scoreData s := by
  unfold selectAnswer; split <;> rfl

theorem scoreData_showQuestion (s : QuizState) (i : Nat) :
    scoreData (showQuestion s i) = scoreData s := by
  unfold showQuestion endQuiz clearTimer startTimer; split <;> rfl

theorem scoreData_endQuiz (s : QuizState) :
    scoreData (endQuiz s) = scoreData s := rfl

theorem scoreData_nextQuestion (s : QuizState) :
    scoreData (nextQuestion s) = scoreData s := by
  unfold nextQuestion
  split
  · exact scoreData_showQuestion _ _
  · rfl

theorem scoreData_delayedAdvanceRun (s : QuizState) :
    scoreData (delayedAdvanceRun s) = scoreData s := by
  show scoreData
      (if ({ s with pendingAdvances := s.pendingAdvances - 1 } :
            QuizState).currentQuestionIndex <
          ({ s with pendingAdvances := s.pendingAdvances - 1 } :
            QuizState).questions.length - 1 then
        nextQuestion { s with pendingAdvances := s.pendingAdvances - 1 }
      else endQuiz { s with pendingAdvances := s.pendingAdvances - 1 }) =
    scoreData s
  split
  · exact scoreData_nextQuestion _
  · rfl

theorem scoreInv_submitAnswer (s : QuizState) (h : ScoreInv s) :
    ScoreInv (submitAnswer s) := by
  obtain ⟨h1, h2, h3⟩ := h
  by_cases ha : s.isAnswered = true
  · simpa [submitAnswer, ha] using And.intro h1 (And.intro h2 h3)
  · rw [Bool.not_eq_true] at ha
    cases hq : s.questionStartTime <;> cases hsel : s.selected
    · simp only [submitAnswer, ha, Bool.false_eq_true, if_false, clearTimer,
        recordQuestionTime, hq, hsel, if_true]
      refine ⟨?_, ?_, ?_⟩ <;>
        simp [resetStreak, countCorrect_append, streakPair_append, h1, h2, h3]
    · simp only [submitAnswer, ha, Bool.false_eq_true, if_false, clearTimer,
        recordQuestionTime, hq, hsel, if_true]
      split
      · next hc =>
        rw [beq_iff_eq] at hc
        refine ⟨?_, ?_, ?_⟩ <;>
          simp [incrementScore, countCorrect_append, streakPair_append,
            List.getD_eq_getElem?_getD, hc, h1, h2, h3]
      · next hc =>
        rw [Bool.not_eq_true, beq_eq_false_iff_ne,
          List.getD_eq_getElem?_getD] at hc
        refine ⟨?_, ?_, ?_⟩ <;>
          simp [resetStreak, countCorrect_append, streakPair_append,
            List.getD_eq_getElem?_getD, hc, h1, h2, h3]
    · simp only [submitAnswer, ha, Bool.false_eq_true, if_false, clearTimer,
        recordQuestionTime, hq, hsel, if_true]
      refine ⟨?_, ?_, ?_⟩ <;>
        simp [resetStreak, countCorrect_append, streakPair_append, h1, h2, h3]
    · simp only [submitAnswer, ha, Bool.false_eq_true, if_false, clearTimer,
        recordQuestionTime, hq, hsel, if_true]
      split
      · next hc =>
        rw [beq_iff_eq] at hc
        refine ⟨?_, ?_, ?_⟩ <;>
          simp [incrementScore, countCorrect_append, streakPair_append,
            List.getD_eq_getElem?_getD, hc, h1, h2, h3]
      · next hc =>
        rw [Bool.not_eq_true, beq_eq_false_iff_ne,
          List.getD_eq_getElem?_getD] at hc
        refine ⟨?_, ?_, ?_⟩ <;>
          simp [resetStreak, countCorrect_append, streakPair_append,
            List.getD_eq_getElem?_getD, hc, h1, h2, h3]

theorem scoreInv_skipQuestion (s : QuizState) (h : ScoreInv s) :
    ScoreInv (skipQuestion s) := by
  obtain ⟨h1, h2, h3⟩ := h
  by_cases ha : s.isAnswered = true
  · simpa [skipQuestion, ha] using And.intro h1 (And.intro h2 h3)
  · rw [Bool.not_eq_true] at ha
    simp only [skipQuestion, ha, Bool.false_eq_true, if_false, clearTimer,
      resetStreak]
    refine ⟨?_, ?_, ?_⟩ <;>
      simp [countCorrect_append, streakPair_append, h1, h2, h3]

theorem scoreInv_handleTimeUp (s : QuizState) (h : ScoreInv s) :
    ScoreInv (handleTimeUp s) := by
  by_cases ha : s.isAnswered = true
  · simpa [handleTimeUp, ha] using h
  · rw [Bool.not_eq_true] at ha
    have hsub : ScoreInv (submitAnswer (clearTimer s)) :=
      scoreInv_submitAnswer (clearTimer s) ⟨h.1, h.2.1, h.2.2⟩
    simp only [handleTimeUp, ha, Bool.false_eq_true, if_false]
    exact ⟨hsub.1, hsub.2.1, hsub.2.2⟩

theorem scoreInv_tick (s : QuizState) (h : ScoreInv s) : ScoreInv (tick s) := by
  show ScoreInv
    (if ({ s with timeLeft := s.timeLeft - 1 } : QuizState).timeLeft ≤ 0 then
      handleTimeUp { s with timeLeft := s.timeLeft - 1 }
    else { s with timeLeft := s.timeLeft - 1 })
  split
  · exact scoreInv_handleTimeUp _ ⟨h.1, h.2.1, h.2.2⟩
  · exact ⟨h.1, h.2.1, h.2.2⟩

theorem scoreInv_step {s s' : QuizState} (hstep : Step s s')
    (h : ScoreInv s) : ScoreInv s' := by
  cases hstep with
  | select a _ => exact scoreInv_of_scoreData (scoreData_selectAnswer _ a) h
  | submit _ => exact scoreInv_submitAnswer _ h
  | skip _ => exact scoreInv_skipQuestion _ h
  | next _ => exact scoreInv_of_scoreData (scoreData_nextQuestion _) h
  | timerTick _ => exact scoreInv_tick _ h
  | delayedAdvance _ =>
      exact scoreInv_of_scoreData (scoreData_delayedAdvanceRun _) h

theorem bestStreak_le_submitAnswer (s : QuizState) :
    s.bestStreak ≤ (submitAnswer s).bestStreak := by
  by_cases ha : s.isAnswered = true
  · simp [submitAnswer, ha]
  · rw [Bool.not_eq_true] at ha
    cases hq : s.questionStartTime <;> cases hsel : s.selected <;>
      simp only [submitAnswer, ha, Bool.false_eq_true, if_false, clearTimer,
        recordQuestionTime, hq, hsel, if_true]
    · exact le_refl _
    · split <;> simp [incrementScore, resetStreak, le_max_left]
    · exact le_refl _
    · split <;> simp [incrementScore, resetStreak, le_max_left]

theorem bestStreak_le_handleTimeUp (s : QuizState) :
    s.bestStreak ≤ (handleTimeUp s).bestStreak := by
  by_cases ha : s.isAnswered = true
  · simp [handleTimeUp, ha]
  · rw [Bool.not_eq_true] at ha
    simp only [handleTimeUp, ha, Bool.false_eq_true, if_false]
    exact bestStreak_le_submitAnswer (clearTimer s)

theorem bestStreak_le_tick (s : QuizState) :
    s.bestStreak ≤ (tick s).bestStreak := by
  show s.bestStreak ≤
    (if ({ s with timeLeft := s.timeLeft - 1 } : QuizState).timeLeft ≤ 0 then
      handleTimeUp { s with timeLeft := s.timeLeft - 1 }
    else { s with timeLeft := s.timeLeft - 1 }).bestStreak
  split
  · exact bestStreak_le_handleTimeUp { s with timeLeft := s.timeLeft - 1 }
  · exact le_refl _

theorem bestStreak_le_skipQuestion (s : QuizState) :
    s.bestStreak ≤ (skipQuestion s).bestStreak := by
  by_cases ha : s.isAnswered = true
  · simp [skipQuestion, ha]
  · rw [Bool.not_eq_true] at ha
    simp [skipQuestion, ha, clearTimer, resetStreak]

theorem bestStreak_step {s s' : QuizState} (hstep : Step s s') :
    s.bestStreak ≤ s'.bestStreak := by
  cases hstep with
  | select a _ => exact (bestStreak_of_scoreData (scoreData_selectAnswer _ a)).ge
  | submit _ => exact bestStreak_le_submitAnswer _
  | skip _ => exact bestStreak_le_skipQuestion _
  | next _ => exact (bestStreak_of_scoreData (scoreData_nextQuestion _)).ge
  | timerTick _ => exact bestStreak_le_tick _
  | delayedAdvance _ =>
      exact (bestStreak_of_scoreData (scoreData_delayedAdvanceRun _)).ge

theorem scoreInv_start (prior : QuizState) (input : Settings)
    (fetchResult : Except String (List Question))
    (hok : (startQuiz prior input fetchResult).error = none) :
    ScoreInv (startQuiz prior input fetchResult).state := by
  cases hval : validateSettings input
  · simp [startQuiz, hval] at hok
  · cases fetchResult with
    | error msg => simp [startQuiz, hval] at hok
    | ok qs =>
      by_cases hq0 : qs.length = 0
      · simp [startQuiz, hval, hq0] at hok
      · simp only [startQuiz, hval, Bool.true_eq_false, if_false, hq0,
          if_neg hq0]
        exact scoreInv_of_scoreData (scoreData_showQuestion _ 0) ⟨rfl, rfl, rfl⟩

/-- C2: at every state reachable during a session, `score` equals the
number of recorded answers with `isCorrect = true`, and `streak` /
`bestStreak` equal the current and the maximal run of the fold that
zeroes the streak on each incorrect, unanswered or skipped resolution
and extends it by one on each correct one; furthermore `bestStreak`
never decreases across any further step. -/
theorem scoring_invariant (prior : QuizState) (input : Settings)
    (fetchResult : Except String (List Question)) (s : QuizState)
    (hok : (startQuiz prior input fetchResult).error = none)
    (hreach : Reachable (startQuiz prior input fetchResult).state s) :
    s.score = countCorrect s.userAnswers ∧
    s.streak = (streakPair s.userAnswers).2 ∧
    s.bestStreak = (streakPair s.userAnswers).1 ∧
    (∀ s', Step s s' → s.bestStreak ≤ s'.bestStreak) := by
  have hinv : ScoreInv s := by
    induction hreach with
    | refl => exact scoreInv_start prior input fetchResult hok
    | step hr hstep ih => exact scoreInv_step hstep ih
  exact ⟨hinv.1, hinv.2.1, hinv.2.2, fun s' hstep => bestStreak_step hstep⟩

/-- Witness for C2 at the (reachable) start state of a session. -/
theorem scoring_invariant_spot :
    (startQuiz initialState ⟨10, "", "medium", 20⟩ (Except.ok [qA])).state.score =
      countCorrect
        (startQuiz initialState ⟨10, "", "medium", 20⟩
          (Except.ok [qA])).state.userAnswers :=
  (scoring_invariant initialState ⟨10, "", "medium", 20⟩ (Except.ok [qA]) _
    (by decide) Reachable.refl).1

/-! ### Claim C3 — the timer can leak -/

/-- C3: the code violates the claim.  `startTimer` installs a fresh
interval without cancelling the referenced one, and the delayed
auto-advance scheduled by `handleTimeUp` calls the unguarded
`nextQuestion`.  Trace (3 questions, 5 s each): the countdown of
question 0 expires (auto-submit, auto-advance scheduled), the user
clicks next during the 2 s delay and question 1 starts, then the
delayed auto-advance fires — question 1 is abandoned with no
`AnswerRecord` while its interval keeps running, and question 2's
`startTimer` overwrites the live handle: two countdowns are live at a
reachable state. -/
theorem timer_leak :
    Reachable leakStart leakEnd ∧
    liveTimers leakStart = 1 ∧
    liveTimers leakEnd = 2 ∧
    leakEnd.leakedTimers = 1 ∧
    leakEnd.currentQuestionIndex = 2 ∧
    leakEnd.userAnswers.length = 1 := by
  refine ⟨?_, by decide, by decide, by decide, by decide, by decide⟩
  show Reachable leakStart leakEnd
  have h0 : Reachable leakStart leakStart := .refl
  have h1 := h0.step (Step.timerTick _ (Or.inl (by decide)))
  have h2 := h1.step (Step.timerTick _ (Or.inl (by decide)))
  have h3 := h2.step (Step.timerTick _ (Or.inl (by decide)))
  have h4 := h3.step (Step.timerTick _ (Or.inl (by decide)))
  have h5 := h4.step (Step.timerTick _ (Or.inl (by decide)))
  have h6 := h5.step (Step.next _ (by decide))
  exact h6.step (Step.delayedAdvance _ (by decide))

/-! ### Claim C10 — the shuffle is a permutation -/

theorem set_get?_self (l : List α) :
    ∀ (i : Nat) (a : α), l.get? i = some a → l.set i a = l := by
  induction l with
  | nil => intro i a h; simp at h
  | cons x xs ih =>
    intro i a h
    cases i with
    | zero =>
      simp only [List.get?_cons_zero, Option.some.injEq] at h
      subst h
      rfl
    | succ i =>
      simp only [List.get?_cons_succ] at h
      simp only [List.set]
      rw [ih i a h]

theorem count_set_of_get? [DecidableEq α] (l : List α) :
    ∀ (i : Nat) (a v c : α), l.get? i = some a →
      (l.set i v).count c + (if a = c then 1 else 0) =
        l.count c + (if v = c then 1 else 0) := by
  induction l with
  | nil => intro i a v c h; simp at h
  | cons x xs ih =>
    intro i a v c h
    cases i with
    | zero =>
      simp only [List.get?_cons_zero, Option.some.injEq] at h
      subst h
      simp only [List.set, List.count_cons, beq_iff_eq]
      omega
    | succ i =>
      simp only [List.get?_cons_succ] at h
      simp only [List.set, List.count_cons]
      have hih := ih i a v c h
      rw [Nat.add_right_comm, hih, Nat.add_right_comm]

theorem swapIdx_perm [DecidableEq α] (l : List α) (i j : Nat) :
    (swapIdx l i j).Perm l := by
  unfold swapIdx
  cases hi : l.get? i with
  | none => cases hj : l.get? j <;> exact List.Perm.refl l
  | some a =>
    cases hj : l.get? j with
    | none => exact List.Perm.refl l
    | some b =>
      by_cases hij : i = j
      · subst hij
        rw [hi, Option.some.injEq] at hj
        subst hj
        show ((l.set i a).set i a).Perm l
        rw [List.set_set, set_get?_self l i a hi]
      · have hgoal : ((l.set i b).set j a).Perm l := by
          rw [List.perm_iff_count]
          intro c
          have h1 := count_set_of_get? l i a b c hi
          have hbj : (l.set i b).get? j = some b := by
            rw [List.get?_eq_getElem? (l.set i b) j, List.getElem?_set_ne hij,
              ← List.get?_eq_getElem? l j]
            exact hj
          have h2 := count_set_of_get? (l.set i b) j b a c hbj
          omega
        exact hgoal

theorem fisherLoop_perm [DecidableEq α] (rand : Nat → Nat) :
    ∀ (n : Nat) (l : List α), (fisherLoop rand n l).Perm l
  | 0, l => List.Perm.refl l
  | n + 1, l =>
    (fisherLoop_perm rand n _).trans
      (swapIdx_perm l (n + 1) (rand (n + 1) % (n + 2)))

theorem shuffleArray_perm [DecidableEq α] (rand : Nat → Nat) (l : List α) :
    (shuffleArray rand l).Perm l :=
  fisherLoop_perm rand _ l

/-- C10: whatever values `Math.random` produces, `Utils.shuffleArray`
returns a permutation of its input — same length, same multiset — and,
being modelled as a pure function on an explicit copy, never mutates
the input; consequently `generateAnswers` presents exactly the
question's incorrect answers together with its correct answer, in some
order. -/
theorem shuffle_permutation :
    (∀ (rand : Nat → Nat) (l : List String), (shuffleArray rand l).Perm l) ∧
    (∀ (rand : Nat → Nat) (l : List String),
      (shuffleArray rand l).length = l.length) ∧
    (∀ (rand : Nat → Nat) (question : Question),
      (generateAnswers rand question).Perm
        (question.incorrect_answers ++ [question.correct_answer]) ∧
      question.correct_answer ∈ generateAnswers rand question) := by
  refine ⟨fun rand l => shuffleArray_perm rand l,
          fun rand l => (shuffleArray_perm rand l).length_eq,
          fun rand question => ?_⟩
  have h := shuffleArray_perm rand
    (question.incorrect_answers ++ [question.correct_answer])
  exact ⟨h, h.mem_iff.mpr (by simp)⟩

end QuizPro
